import Mathlib

/-!
Verification of the `Coordinator` orchestration layer of `ollama-rs`
(`src/coordinator.rs`), as a shallow embedding in Lean 4.

The coordinator drives a multi-turn chat loop against a remote generation
service: it builds requests (with a conditional output-format gate),
dispatches tool calls named by the service, appends tool results to history,
and recurses until a response with no tool calls arrives.

External collaborators (the transport, the history store, the tool
capabilities themselves) are not part of `src/`; they are modelled from the
spec's interface contracts: the transport is a finite script of responses,
a history-aware send appends the request messages and the assistant reply,
tools are pure state-transformer functions over an abstract world `σ`, and
stderr debug printing is modelled as an explicit list of emitted lines.
-/

namespace OllamaRs

/-- `MessageRole` from the chat model: System, User, Assistant, Tool. -/
inductive MessageRole where
  | system
  | user
  | assistant
  | tool
deriving DecidableEq, Repr

/-- Debug rendering of a role, standing in for Rust's `{:?}` formatting. -/
def MessageRole.render : MessageRole → String
  | .system => "System"
  | .user => "User"
  | .assistant => "Assistant"
  | .tool => "Tool"

/-- `ToolCallFunction`: the name and (structured) arguments of a requested
tool invocation; arguments are modelled as an opaque string payload. -/
structure ToolCallFunction where
  name : String
  arguments : String
deriving DecidableEq, Repr

/-- `ToolCall { function }`: produced only by the remote service. -/
structure ToolCall where
  function : ToolCallFunction
deriving DecidableEq, Repr

/-- `ChatMessage { role, content, tool_calls }`. -/
structure ChatMessage where
  role : MessageRole
  content : String
  tool_calls : List ToolCall
deriving DecidableEq, Repr

/-- `ChatMessage::tool(content)`: a `Role::Tool` message holding a tool's
string result, with no tool calls of its own. -/
def ChatMessage.tool (content : String) : ChatMessage :=
  { role := .tool, content := content, tool_calls := [] }

/-- `ChatMessageResponse { model, message, .. }` (buffered response). -/
structure ChatMessageResponse where
  model : String
  message : ChatMessage
deriving DecidableEq, Repr

/-- `ModelOptions`: passed through untouched; modelled as an opaque string. -/
abbrev ModelOptions := String

/-- `FormatType`: the output-format constraint; modelled as an opaque string. -/
abbrev FormatType := String

/-- `KeepAlive`: passed through untouched; modelled as an opaque string. -/
abbrev KeepAlive := String

/-- `ToolInfo`: the static descriptor `{ name, description, parameter schema }`
derived once per registered tool; sent with every request. -/
structure ToolInfo where
  name : String
  description : String
  schema : String
deriving DecidableEq, Repr

/-- A tool capability: `call(arguments) -> Result<String, Error>`, modelled as
a state transformer over an abstract world `σ` (the state a tool may read
and mutate), returning the string result or a tool-internal error. -/
def ToolImpl (σ : Type) : Type := String → σ → Except String String × σ

/-- A registered tool: its static name/descriptor data plus its capability.
Stands in for a Rust type `T : Tool` (whose `T::name()`, descriptor schema
and `call` are all determined by the type). -/
structure ToolDef (σ : Type) where
  name : String
  description : String
  schema : String
  impl : ToolImpl σ

/-- `ToolInfo::new::<T>()`: the descriptor derived from a registered tool. -/
def ToolInfo.ofTool {σ : Type} (t : ToolDef σ) : ToolInfo :=
  { name := t.name, description := t.description, schema := t.schema }

/-- `HashMap::insert` semantics on an association-list model of the registry:
at most one entry per key; inserting an existing key replaces its value,
otherwise the binding is added. -/
def hashInsert {α : Type} (m : List (String × α)) (k : String) (v : α) :
    List (String × α) :=
  if m.any (fun p => p.1 = k) then
    m.map (fun p => if p.1 = k then (k, v) else p)
  else
    m ++ [(k, v)]

/-- `HashMap::get` on the association-list model of the registry. -/
def lookupTool {α : Type} (m : List (String × α)) (k : String) : Option α :=
  (m.find? (fun p => p.1 = k)).map (fun p => p.2)

/-- `ToolCallError`: `UnknownToolName` (the service named an unregistered
tool) or `InternalToolError` (the spec's `ToolInvocationFailure`) wrapping
the tool's inner error. -/
inductive ToolCallError where
  | unknownToolName
  | internalToolError (inner : String)
deriving DecidableEq, Repr

/-- `OllamaError`: a tool-call error, or a failure delegated verbatim from
the transport collaborator. -/
inductive OllamaError where
  | toolCallError (e : ToolCallError)
  | transportFailure
deriving DecidableEq, Repr

/-- `ChatMessageRequest`: the ephemeral per-round request value
`{ model, messages, options, tools, format?, keep_alive? }`. -/
structure ChatMessageRequest where
  model : String
  messages : List ChatMessage
  options : ModelOptions
  tools : List ToolInfo
  format : Option FormatType
  keep_alive : Option KeepAlive
deriving DecidableEq, Repr

/-- The `Coordinator` state: model name, generation options, history, the
tool descriptor list, the name-keyed tool registry, the debug flag, and the
optional format and keep-alive configuration. The transport client
(`ollama`) is modelled separately as a response script, and tool-visible
mutable state as the world `σ`. -/
structure Coordinator (σ : Type) where
  model : String
  options : ModelOptions
  history : List ChatMessage
  tool_infos : List ToolInfo
  tools : List (String × ToolImpl σ)
  debug : Bool
  format : Option FormatType
  keep_alive : Option KeepAlive

namespace Coordinator

variable {σ : Type}

/-- `Coordinator::new`: no tools, no format, no keep-alive, debug off. -/
def new (model : String) (history : List ChatMessage) : Coordinator σ :=
  { model := model
    options := ""
    history := history
    tool_infos := []
    tools := []
    debug := false
    format := none
    keep_alive := none }

/-- `Coordinator::add_tool`: pushes the tool's descriptor onto `tool_infos`
and inserts its capability into the name-keyed registry. -/
def add_tool (c : Coordinator σ) (t : ToolDef σ) : Coordinator σ :=
  { c with
    tool_infos := c.tool_infos ++ [ToolInfo.ofTool t]
    tools := hashInsert c.tools t.name t.impl }

/-- `Coordinator::generate_request`: builds one outbound request. Always
attaches `options` and the full descriptor list; attaches `keep_alive` when
configured; attaches `format` (when configured) only if the descriptor list
is empty, or the last message currently in history has `Role::Tool`. -/
def generate_request (c : Coordinator σ) (messages : List ChatMessage) :
    ChatMessageRequest :=
  let request : ChatMessageRequest :=
    { model := c.model
      messages := messages
      options := c.options
      tools := c.tool_infos
      format := none
      keep_alive := none }
  let request :=
    match c.keep_alive with
    | some k => { request with keep_alive := some k }
    | none => request
  match c.format with
  | some f =>
    if c.tool_infos.isEmpty then
      { request with format := some f }
    else
      match c.history.getLast? with
      | some last_message =>
        if last_message.role = MessageRole.tool then
          { request with format := some f }
        else
          request
      | none => request
  | none => request

/-- The two stderr lines `eprintln!("Hit {} with:", model)` and
`eprintln!("\t{:?}: '{}'", role, content)` printed per incoming message in
debug mode. -/
def debugHit (model : String) (m : ChatMessage) : List String :=
  ["Hit " ++ model ++ " with:", "\t" ++ m.role.render ++ ": " ++ m.content]

/-- Stderr line `eprintln!("Tool call: {:?}", call.function)`. -/
def debugToolCall (f : ToolCallFunction) : List String :=
  ["Tool call: " ++ f.name ++ " " ++ f.arguments]

/-- Stderr line `eprintln!("Tool response: {}", resp)`. -/
def debugToolResponse (r : String) : List String :=
  ["Tool response: " ++ r]

/-- Stderr line for the final response in debug mode. -/
def debugResponse (r : ChatMessageResponse) : List String :=
  ["Response from " ++ r.model ++ " of type " ++ r.message.role.render ++
    ": " ++ r.message.content]

end Coordinator

/-- Observable dispatch events of the buffered tool loop, recording the
temporal order of operations: a tool being invoked (name and arguments),
and a `Role::Tool` result message being appended to history. -/
inductive DispatchEvent where
  | invoked (name : String) (arguments : String)
  | appended (content : String)
deriving DecidableEq, Repr

/-- Outcome of the tool-dispatch loop of `Coordinator::chat` (lines 128-147):
the result (`Ok` or the error aborting the round), the coordinator (its
history extended by the appended tool messages), the tool-visible world,
the ordered event trace, and the stderr lines emitted. -/
structure DispatchOutcome (σ : Type) where
  result : Except OllamaError Unit
  coord : Coordinator σ
  world : σ
  events : List DispatchEvent
  stderr : List String

/-- The tool-dispatch loop inside `Coordinator::chat`: iterate the response's
tool calls in order; for each, look the tool up by name (missing name fails
the round with `UnknownToolName`), invoke it (an inner failure fails the
round with `InternalToolError`), and on success push one
`ChatMessage::tool(resp)` onto history before moving to the next call. -/
def dispatchCalls {σ : Type} : Coordinator σ → σ → List ToolCall → DispatchOutcome σ
  | c, w, [] => ⟨.ok (), c, w, [], []⟩
  | c, w, call :: rest =>
    let dbg1 := if c.debug then Coordinator.debugToolCall call.function else []
    match lookupTool c.tools call.function.name with
    | none => ⟨.error (.toolCallError .unknownToolName), c, w, [], dbg1⟩
    | some t =>
      match t call.function.arguments w with
      | (.error e, w1) =>
        ⟨.error (.toolCallError (.internalToolError e)), c, w1,
          [.invoked call.function.name call.function.arguments], dbg1⟩
      | (.ok r, w1) =>
        let dbg2 := if c.debug then Coordinator.debugToolResponse r else []
        let c1 : Coordinator σ := { c with history := c.history ++ [ChatMessage.tool r] }
        let o := dispatchCalls c1 w1 rest
        ⟨o.result, o.coord, o.world,
          .invoked call.function.name call.function.arguments :: .appended r :: o.events,
          dbg1 ++ dbg2 ++ o.stderr⟩

/-- Outcome of a buffered `Coordinator::chat` invocation: the returned
result, the coordinator afterwards, the tool world, the remaining transport
script (each consumed entry is one request/response round-trip), the
dispatch event trace, and the stderr lines emitted. -/
structure ChatOutcome (σ : Type) where
  result : Except OllamaError ChatMessageResponse
  coord : Coordinator σ
  world : σ
  script : List ChatMessageResponse
  events : List DispatchEvent
  stderr : List String

/-- `Coordinator::chat`, the buffered orchestrator loop. The transport
collaborator is modelled from the spec as a finite script of responses:
`send_chat_messages_with_history` consumes the head of the script,
appending the request's messages and the assistant reply to history as its
side effect (an exhausted script models a transport failure, propagated by
`?`). If the reply has tool calls they are dispatched sequentially and the
loop recurses with an empty message list; otherwise the reply is returned. -/
def Coordinator.chat {σ : Type} :
    Coordinator σ → σ → List ChatMessageResponse → List ChatMessage → ChatOutcome σ
  | c, w, [], messages =>
    let dbg0 := if c.debug then messages.flatMap (Coordinator.debugHit c.model) else []
    ⟨.error .transportFailure, c, w, [], [], dbg0⟩
  | c, w, resp :: rest, messages =>
    let dbg0 := if c.debug then messages.flatMap (Coordinator.debugHit c.model) else []
    let request := c.generate_request messages
    let c1 : Coordinator σ :=
      { c with history := c.history ++ request.messages ++ [resp.message] }
    if resp.message.tool_calls.isEmpty then
      let dbg1 := if c.debug then Coordinator.debugResponse resp else []
      ⟨.ok resp, c1, w, rest, [], dbg0 ++ dbg1⟩
    else
      let d := dispatchCalls c1 w resp.message.tool_calls
      match d.result with
      | .error e => ⟨.error e, d.coord, d.world, rest, d.events, dbg0 ++ d.stderr⟩
      | .ok _ =>
        let o := Coordinator.chat d.coord d.world rest []
        ⟨o.result, o.coord, o.world, o.script, d.events ++ o.events,
          dbg0 ++ d.stderr ++ o.stderr⟩

/-- Spec-side description of sequential dispatch, written from the spec's
words for the refinement claim about dispatch order: tool calls are taken
strictly in the order they appear in the response; each call is invoked on
the world state left by its predecessor, and its result is appended before
the next call is invoked (hence the event trace interleaves `invoked k`
and `appended k` in order); any unknown name or inner failure means the
sequence does not complete. Returns the event trace, the ordered list of
results, and the final world. -/
def specSequentialTrace {σ : Type} (tools : List (String × ToolImpl σ)) :
    σ → List ToolCall → Option (List DispatchEvent × List String × σ)
  | w, [] => some ([], [], w)
  | w, call :: rest =>
    match lookupTool tools call.function.name with
    | none => none
    | some t =>
      match t call.function.arguments w with
      | (.error _, _) => none
      | (.ok r, w1) =>
        match specSequentialTrace tools w1 rest with
        | none => none
        | some (es, rs, wf) =>
          some (.invoked call.function.name call.function.arguments ::
                  .appended r :: es, r :: rs, wf)

/-- Consuming one fragment stream in `chat_stream`'s inner `while` loop
(lines 206-211): for each `Ok` fragment its tool calls are accumulated and
the fragment is yielded to the output sequence; an `Err` fragment hits
`i.unwrap()` and aborts the process (nothing further is yielded). Returns
the yielded items, the accumulated tool calls, and whether it aborted. -/
def consumeStream :
    List (Except OllamaError ChatMessageResponse) →
      List (Except OllamaError ChatMessageResponse) × List ToolCall × Bool
  | [] => ([], [], false)
  | .ok r :: rest =>
    let o := consumeStream rest
    (.ok r :: o.1, r.message.tool_calls ++ o.2.1, o.2.2)
  | .error _ :: _ => ([], [], true)

/-- Modelled from the spec: the transport's streaming send appends the
assistant reply to the shared history incrementally; the fragments
"concatenated, reconstruct one logical response", so the appended reply is
the concatenation of the `Ok` fragments' contents carrying all their tool
calls. -/
def assembleMessage (stream : List (Except OllamaError ChatMessageResponse)) :
    ChatMessage :=
  { role := .assistant
    content := String.join (stream.filterMap fun i =>
      match i with
      | .ok r => some r.message.content
      | .error _ => none)
    tool_calls := stream.flatMap fun i =>
      match i with
      | .ok r => r.message.tool_calls
      | .error _ => [] }

/-- The tool-dispatch loop of `chat_stream` (lines 214-234): same sequential
order as the buffered path, but an unknown tool name hits `panic!()` and an
inner tool failure hits `.unwrap()` — both abort the process (`none`)
instead of surfacing an error value. On success one `ChatMessage::tool`
message is pushed onto the shared (locked) history per call. -/
def streamDispatch {σ : Type} (tools : List (String × ToolImpl σ)) (debug : Bool) :
    σ → List ChatMessage → List ToolCall → Option (σ × List ChatMessage × List String)
  | w, shared, [] => some (w, shared, [])
  | w, shared, call :: rest =>
    let dbg1 := if debug then Coordinator.debugToolCall call.function else []
    match lookupTool tools call.function.name with
    | none => none
    | some t =>
      match t call.function.arguments w with
      | (.error _, _) => none
      | (.ok r, w1) =>
        let dbg2 := if debug then Coordinator.debugToolResponse r else []
        match streamDispatch tools debug w1 (shared ++ [ChatMessage.tool r]) rest with
        | none => none
        | some (wf, sf, dbg3) => some (wf, sf, dbg1 ++ dbg2 ++ dbg3)

/-- The effect of one iteration of `chat_stream`'s outer loop on one
fragment stream: either the output sequence is over (`done`, with the
aborted flag telling a process abort apart from a normal end), or a
follow-up request must be issued (`next`). -/
inductive StreamStep (σ : Type) where
  | done (yielded : List (Except OllamaError ChatMessageResponse)) (aborted : Bool)
      (shared : List ChatMessage) (world : σ) (stderr : List String)
  | next (yielded : List (Except OllamaError ChatMessageResponse))
      (request : ChatMessageRequest)
      (shared : List ChatMessage) (world : σ) (stderr : List String)

/-- One iteration of `chat_stream`'s outer loop (lines 204-243): consume the
whole fragment stream (yielding every fragment, accumulating tool calls),
then — only after the stream is exhausted — dispatch the accumulated calls;
if any were accumulated (`keep_going`) build one follow-up request with an
empty message list, else the output sequence ends. `c` is the coordinator
as frozen at the start of `chat_stream` (its own `history` field is the
stale clone source; mutation goes to the shared history). -/
def streamRound {σ : Type} (c : Coordinator σ) (w : σ) (shared : List ChatMessage)
    (stream : List (Except OllamaError ChatMessageResponse)) : StreamStep σ :=
  let o := consumeStream stream
  let ys := o.1
  let calls := o.2.1
  if o.2.2 then
    .done ys true shared w []
  else
    let shared1 := shared ++ [assembleMessage stream]
    let keep_going := !calls.isEmpty
    match streamDispatch c.tools c.debug w shared1 calls with
    | none => .done ys true shared1 w []
    | some (w1, shared2, dbg) =>
      if keep_going then
        .next ys (c.generate_request []) shared2 w1 dbg
      else
        .done ys false shared2 w1 dbg

/-- Outcome of the streaming output sequence: the items the consumer
receives (fragments or error values), whether the process aborted (panic /
unwrap), the follow-up requests issued, the final shared history, the tool
world, and stderr. -/
structure StreamOutcome (σ : Type) where
  yielded : List (Except OllamaError ChatMessageResponse)
  aborted : Bool
  requests : List ChatMessageRequest
  shared : List ChatMessage
  world : σ
  stderr : List String

/-- `chat_stream`'s outer loop over the scripted transport: each follow-up
send consumes the head of the script (an exhausted script models a
transport failure, which the `?` inside `try_stream!` surfaces as a final
error value of the output sequence). -/
def streamLoop {σ : Type} (c : Coordinator σ) :
    List (List (Except OllamaError ChatMessageResponse)) → σ → List ChatMessage →
      List (Except OllamaError ChatMessageResponse) → StreamOutcome σ
  | script, w, shared, stream =>
    match streamRound c w shared stream with
    | .done ys ab sh wf dbg => ⟨ys, ab, [], sh, wf, dbg⟩
    | .next ys req sh wf dbg =>
      match script with
      | [] => ⟨ys ++ [.error .transportFailure], false, [req], sh, wf, dbg⟩
      | s :: rest =>
        let o := streamLoop c rest wf (sh ++ req.messages) s
        ⟨ys ++ o.yielded, o.aborted, req :: o.requests, o.shared, o.world, dbg ++ o.stderr⟩

/-- `Coordinator::chat_stream` (lines 180-248): build the initial request,
clone the history into the shared lock, issue the initial send (a failure
here is an error of the entry call itself), then run the outer loop. The
transport script is a list of fragment streams, one per issued request. -/
def Coordinator.chat_stream {σ : Type} (c : Coordinator σ) (w : σ)
    (messages : List ChatMessage)
    (script : List (List (Except OllamaError ChatMessageResponse))) :
    Except OllamaError (StreamOutcome σ) :=
  let dbg0 := if c.debug then messages.flatMap (Coordinator.debugHit c.model) else []
  let request := c.generate_request messages
  match script with
  | [] => .error .transportFailure
  | s :: rest =>
    let shared := c.history ++ request.messages
    let o := streamLoop c rest w shared s
    .ok { o with requests := request :: o.requests, stderr := dbg0 ++ o.stderr }

/-! ### Concrete fixtures used by witnesses and counterexamples -/

/-- A tool named `"a"` that always succeeds with result `"ra"`. -/
def toolA : ToolDef Unit := ⟨"a", "da", "sa", fun _ w => (.ok "ra", w)⟩

/-- A tool named `"a"` whose capability always fails with inner error `"ea"`. -/
def toolAFail : ToolDef Unit := ⟨"a", "da2", "sa2", fun _ w => (.error "ea", w)⟩

/-- A tool named `"inc"` that increments a counter world. -/
def toolInc : ToolDef Nat := ⟨"inc", "di", "si", fun _ w => (.ok "done", w + 1)⟩

/-- A tool named `"read"` that reports the counter world. -/
def toolRead : ToolDef Nat := ⟨"read", "dr", "sr", fun _ w => (.ok (toString w), w)⟩

/-- A coordinator over the unit world with the single tool `"a"`. -/
def coordA : Coordinator Unit := (Coordinator.new "m" []).add_tool toolA

/-- A tool call to the named tool with empty-object arguments. -/
def callNamed (n : String) : ToolCall := ⟨⟨n, "\x7b\x7d"⟩⟩

/-- An assistant response requesting tools `"a"` then `"b"` (the latter is
not registered in `coordA`). -/
def respAB : ChatMessageResponse :=
  ⟨"m", ⟨.assistant, "", [callNamed "a", callNamed "b"]⟩⟩

/-- An assistant response requesting only tool `"a"`. -/
def respA : ChatMessageResponse := ⟨"m", ⟨.assistant, "", [callNamed "a"]⟩⟩

/-- A final assistant response with no tool calls. -/
def respDone : ChatMessageResponse := ⟨"m", ⟨.assistant, "x is 42", []⟩⟩

/-- `coordA` with a configured output format. -/
def coordJson : Coordinator Unit := { coordA with format := some "json" }

/-- The request `coordA.generate_request []` evaluates to. -/
def reqA0 : ChatMessageRequest :=
  { model := "m", messages := [], options := "",
    tools := [ToolInfo.ofTool toolA], format := none, keep_alive := none }

/-- A coordinator whose only tool `"a"` always fails internally. -/
def coordAFail : Coordinator Unit := (Coordinator.new "m" []).add_tool toolAFail

/-- A coordinator over a counter world with tools `"inc"` and `"read"`. -/
def coordCount : Coordinator Nat :=
  ((Coordinator.new "m" []).add_tool toolInc).add_tool toolRead

/-! ## Helper lemmas -/

/-- `generate_request` passes the incoming messages through unchanged. -/
theorem generate_request_messages {σ : Type} (c : Coordinator σ)
    (messages : List ChatMessage) :
    (c.generate_request messages).messages = messages := by
  unfold Coordinator.generate_request
  cases c.keep_alive <;> cases c.format <;> simp <;>
    split <;> (try split) <;> (try split) <;> simp

/-- `generate_request` always attaches the full descriptor list. -/
theorem generate_request_tools {σ : Type} (c : Coordinator σ)
    (messages : List ChatMessage) :
    (c.generate_request messages).tools = c.tool_infos := by
  unfold Coordinator.generate_request
  cases c.keep_alive <;> cases c.format <;> simp <;>
    split <;> (try split) <;> (try split) <;> simp

/-! ## C1 -/

/-- C1 (format gating): for every built request with a configured format,
the output-format constraint is attached iff the tool descriptor list is
empty, or the last message currently in history (never the new-messages
argument, over which the statement is universally quantified) has role
`Tool`; in particular with non-empty tools and empty history the format is
not attached (the right-hand side is then false). -/
theorem generate_request_format_gating {σ : Type} (c : Coordinator σ)
    (f : FormatType) (messages : List ChatMessage) (hf : c.format = some f) :
    (c.generate_request messages).format = some f ↔
      (c.tool_infos = [] ∨
        ∃ m, c.history.getLast? = some m ∧ m.role = MessageRole.tool) := by
  unfold Coordinator.generate_request
  rw [hf]
  cases hk : c.keep_alive <;>
  · rcases hti : c.tool_infos with _ | ⟨t, ts⟩
    · simp
    · simp only [List.isEmpty_cons, Bool.false_eq_true, if_false]
      rcases hl : c.history.getLast? with _ | m
      · simp
      · by_cases hr : m.role = MessageRole.tool
        · simp [hr]
        · simp only [hr, if_false]
          simp
          exact hr

/-- C1 witness: a coordinator with a configured format and one registered
tool but empty history does not attach the format. -/
theorem generate_request_format_gating_witness :
    coordJson.format = some "json" ∧
      ((coordJson.generate_request []).format = some "json" ↔
        (coordJson.tool_infos = [] ∨
          ∃ m, coordJson.history.getLast? = some m ∧ m.role = MessageRole.tool)) :=
  ⟨rfl, generate_request_format_gating coordJson "json" [] rfl⟩

/-! ## C2 -/

/-- C2 (buffered-loop termination): a round whose response has an empty
`tool_calls` list returns that response unchanged, consumes exactly one
transport round-trip, performs no dispatch, and the orchestrator mutates
history no further — afterwards history is exactly the prior history plus
the transport collaborator's own appends (the request messages and the
assistant reply). -/
theorem chat_empty_tool_calls {σ : Type} (c : Coordinator σ) (w : σ)
    (rest : List ChatMessageResponse) (messages : List ChatMessage)
    (resp : ChatMessageResponse) (h : resp.message.tool_calls = []) :
    (Coordinator.chat c w (resp :: rest) messages).result = .ok resp ∧
      (Coordinator.chat c w (resp :: rest) messages).coord =
        { c with history := c.history ++ messages ++ [resp.message] } ∧
      (Coordinator.chat c w (resp :: rest) messages).world = w ∧
      (Coordinator.chat c w (resp :: rest) messages).script = rest ∧
      (Coordinator.chat c w (resp :: rest) messages).events = [] := by
  simp [Coordinator.chat, h, generate_request_messages]

/-- C2 witness: a concrete no-tool-call round returns the response and
leaves only the transport's appends in history. -/
theorem chat_empty_tool_calls_witness :
    respDone.message.tool_calls = [] ∧
      ((Coordinator.chat coordA () [respDone] []).result = .ok respDone ∧
        (Coordinator.chat coordA () [respDone] []).coord =
          { coordA with history := coordA.history ++ [] ++ [respDone.message] } ∧
        (Coordinator.chat coordA () [respDone] []).world = () ∧
        (Coordinator.chat coordA () [respDone] []).script = [] ∧
        (Coordinator.chat coordA () [respDone] []).events = []) :=
  ⟨rfl, chat_empty_tool_calls coordA () [] [] respDone rfl⟩

/-! ## Dispatch lemmas -/

/-- A completed spec-side sequential trace determines the dispatch loop's
behavior: it succeeds, appends exactly the traced results (in order) as
`Role::Tool` messages, ends in the traced world, and emits the traced
events. -/
theorem dispatch_of_spec {σ : Type} :
    ∀ (calls : List ToolCall) (c : Coordinator σ) (w : σ) (es : List DispatchEvent)
      (rs : List String) (wf : σ),
      specSequentialTrace c.tools w calls = some (es, rs, wf) →
      (dispatchCalls c w calls).result = .ok () ∧
        (dispatchCalls c w calls).coord =
          { c with history := c.history ++ rs.map ChatMessage.tool } ∧
        (dispatchCalls c w calls).world = wf ∧
        (dispatchCalls c w calls).events = es
  | [], c, w, es, rs, wf, h => by
    simp only [specSequentialTrace, Option.some_inj, Prod.mk.injEq] at h
    obtain ⟨he, hr, hw⟩ := h
    subst he
    subst hr
    subst hw
    simp [dispatchCalls]
  | call :: rest, c, w, es, rs, wf, h => by
    simp only [specSequentialTrace] at h
    split at h
    · exact absurd h (by simp)
    · rename_i t hl
      split at h
      · exact absurd h (by simp)
      · rename_i r w1 hc
        split at h
        · exact absurd h (by simp)
        · rename_i es1 rs1 wf1 hs
          simp only [Option.some_inj, Prod.mk.injEq] at h
          obtain ⟨he, hr, hw⟩ := h
          subst he
          subst hr
          subst hw
          have ih := dispatch_of_spec rest
            { c with history := c.history ++ [ChatMessage.tool r] } w1 es1 rs1 _ hs
          simp only [dispatchCalls, hl, hc]
          refine ⟨ih.1, ?_, ih.2.2.1, by simp [ih.2.2.2]⟩
          rw [ih.2.1]
          simp

/-- A successful dispatch loop has a completed spec-side sequential trace. -/
theorem spec_of_dispatch_ok {σ : Type} :
    ∀ (calls : List ToolCall) (c : Coordinator σ) (w : σ),
      (dispatchCalls c w calls).result = .ok () →
      ∃ es rs wf, specSequentialTrace c.tools w calls = some (es, rs, wf)
  | [], _, w, _ => ⟨[], [], w, rfl⟩
  | call :: rest, c, w, h => by
    simp only [dispatchCalls] at h
    split at h
    · simp at h
    · rename_i t hl
      split at h
      · simp at h
      · rename_i r w1 hc
        obtain ⟨es, rs, wf, hs⟩ := spec_of_dispatch_ok rest
          { c with history := c.history ++ [ChatMessage.tool r] } w1 h
        refine ⟨DispatchEvent.invoked call.function.name call.function.arguments ::
          DispatchEvent.appended r :: es, r :: rs, wf, ?_⟩
        simp only [specSequentialTrace, hl, hc, hs]

/-- Dispatching `pre ++ suf` after a completed trace of `pre` behaves as
dispatching `suf` from the state the trace of `pre` left behind; the event
trace of `pre` is a prefix of the whole trace. -/
theorem dispatch_append {σ : Type} :
    ∀ (pre : List ToolCall) (c : Coordinator σ) (w : σ) (es : List DispatchEvent)
      (rs : List String) (wf : σ) (suf : List ToolCall),
      specSequentialTrace c.tools w pre = some (es, rs, wf) →
      (dispatchCalls c w (pre ++ suf)).result =
          (dispatchCalls { c with history := c.history ++ rs.map ChatMessage.tool }
            wf suf).result ∧
        (dispatchCalls c w (pre ++ suf)).coord =
          (dispatchCalls { c with history := c.history ++ rs.map ChatMessage.tool }
            wf suf).coord ∧
        (dispatchCalls c w (pre ++ suf)).world =
          (dispatchCalls { c with history := c.history ++ rs.map ChatMessage.tool }
            wf suf).world ∧
        (dispatchCalls c w (pre ++ suf)).events =
          es ++ (dispatchCalls { c with history := c.history ++ rs.map ChatMessage.tool }
            wf suf).events
  | [], c, w, es, rs, wf, suf, h => by
    simp only [specSequentialTrace, Option.some_inj, Prod.mk.injEq] at h
    obtain ⟨he, hr, hw⟩ := h
    subst he
    subst hr
    subst hw
    simp
  | call :: rest, c, w, es, rs, wf, suf, h => by
    simp only [specSequentialTrace] at h
    split at h
    · exact absurd h (by simp)
    · rename_i t hl
      split at h
      · exact absurd h (by simp)
      · rename_i r w1 hc
        split at h
        · exact absurd h (by simp)
        · rename_i es1 rs1 wf1 hs
          simp only [Option.some_inj, Prod.mk.injEq] at h
          obtain ⟨he, hr, hw⟩ := h
          subst he
          subst hr
          subst hw
          have ih := dispatch_append rest
            { c with history := c.history ++ [ChatMessage.tool r] } w1 es1 rs1 _ suf hs
          simp only [List.append_assoc, List.singleton_append, List.map_cons] at ih
          simp only [List.cons_append, dispatchCalls, hl, hc, List.map_cons]
          refine ⟨ih.1, ih.2.1, ih.2.2.1, by simp [ih.2.2.2]⟩

/-- A round whose dispatch fails propagates the dispatch error: the chat
call returns that error, keeps the dispatch loop's history/world, and
issues no further request. -/
theorem chat_cons_dispatch_error {σ : Type} (c : Coordinator σ) (w : σ)
    (rest : List ChatMessageResponse) (messages : List ChatMessage)
    (resp : ChatMessageResponse) (e : OllamaError)
    (hne : resp.message.tool_calls.isEmpty = false)
    (hd : (dispatchCalls { c with history := c.history ++ messages ++ [resp.message] }
        w resp.message.tool_calls).result = .error e) :
    (Coordinator.chat c w (resp :: rest) messages).result = .error e ∧
      (Coordinator.chat c w (resp :: rest) messages).coord =
        (dispatchCalls { c with history := c.history ++ messages ++ [resp.message] }
          w resp.message.tool_calls).coord ∧
      (Coordinator.chat c w (resp :: rest) messages).world =
        (dispatchCalls { c with history := c.history ++ messages ++ [resp.message] }
          w resp.message.tool_calls).world ∧
      (Coordinator.chat c w (resp :: rest) messages).script = rest := by
  simp only [Coordinator.chat, generate_request_messages, hne, Bool.false_eq_true,
    if_false]
  rw [hd]
  simp

/-- A round whose dispatch succeeds continues as a chat call on the
dispatch loop's coordinator and world, with an empty new-messages list. -/
theorem chat_cons_dispatch_ok {σ : Type} (c : Coordinator σ) (w : σ)
    (rest : List ChatMessageResponse) (messages : List ChatMessage)
    (resp : ChatMessageResponse)
    (hne : resp.message.tool_calls.isEmpty = false)
    (hd : (dispatchCalls { c with history := c.history ++ messages ++ [resp.message] }
        w resp.message.tool_calls).result = .ok ()) :
    (Coordinator.chat c w (resp :: rest) messages).result =
        (Coordinator.chat
          (dispatchCalls { c with history := c.history ++ messages ++ [resp.message] }
            w resp.message.tool_calls).coord
          (dispatchCalls { c with history := c.history ++ messages ++ [resp.message] }
            w resp.message.tool_calls).world rest []).result ∧
      (Coordinator.chat c w (resp :: rest) messages).coord =
        (Coordinator.chat
          (dispatchCalls { c with history := c.history ++ messages ++ [resp.message] }
            w resp.message.tool_calls).coord
          (dispatchCalls { c with history := c.history ++ messages ++ [resp.message] }
            w resp.message.tool_calls).world rest []).coord ∧
      (Coordinator.chat c w (resp :: rest) messages).world =
        (Coordinator.chat
          (dispatchCalls { c with history := c.history ++ messages ++ [resp.message] }
            w resp.message.tool_calls).coord
          (dispatchCalls { c with history := c.history ++ messages ++ [resp.message] }
            w resp.message.tool_calls).world rest []).world ∧
      (Coordinator.chat c w (resp :: rest) messages).script =
        (Coordinator.chat
          (dispatchCalls { c with history := c.history ++ messages ++ [resp.message] }
            w resp.message.tool_calls).coord
          (dispatchCalls { c with history := c.history ++ messages ++ [resp.message] }
            w resp.message.tool_calls).world rest []).script ∧
      (Coordinator.chat c w (resp :: rest) messages).events =
        (dispatchCalls { c with history := c.history ++ messages ++ [resp.message] }
          w resp.message.tool_calls).events ++
        (Coordinator.chat
          (dispatchCalls { c with history := c.history ++ messages ++ [resp.message] }
            w resp.message.tool_calls).coord
          (dispatchCalls { c with history := c.history ++ messages ++ [resp.message] }
            w resp.message.tool_calls).world rest []).events := by
  simp only [Coordinator.chat, generate_request_messages, hne, Bool.false_eq_true,
    if_false]
  rw [hd]
  simp

/-! ## C3 -/

/-- C3 counterexample: with registry `{a}` and a round requesting `[a, b]`,
`chat` does return `UnknownToolName`, but history is NOT left as it was
before the round's assistant message plus that assistant message alone —
the successful call `a` dispatched before the unknown name `b` also
appended its `Role::Tool` result — refuting the claim's history clause as
universally stated. -/
theorem chat_unknown_tool_counterexample :
    (Coordinator.chat coordA () [respAB] []).result =
        .error (.toolCallError .unknownToolName) ∧
      (Coordinator.chat coordA () [respAB] []).coord.history =
        [respAB.message, ChatMessage.tool "ra"] ∧
      (Coordinator.chat coordA () [respAB] []).coord.history ≠
        coordA.history ++ [] ++ [respAB.message] := by
  refine ⟨rfl, rfl, ?_⟩
  decide

/-- C3 amended: for every buffered round whose response names a tool absent
from the registry, where every call preceding the first absent name
succeeds, chat returns the `UnknownToolName` error (no retry, no silent
skip — the remaining script is untouched), and history is left exactly as
it was before that round's assistant message was appended, plus that one
assistant message, plus one `Role::Tool` result message for each successful
call dispatched before the unknown name. -/
theorem chat_unknown_tool {σ : Type} (c : Coordinator σ) (w : σ)
    (rest : List ChatMessageResponse) (messages : List ChatMessage)
    (resp : ChatMessageResponse) (pre post : List ToolCall) (call : ToolCall)
    (es : List DispatchEvent) (rs : List String) (wf : σ)
    (hcalls : resp.message.tool_calls = pre ++ call :: post)
    (hpre : specSequentialTrace c.tools w pre = some (es, rs, wf))
    (hunknown : lookupTool c.tools call.function.name = none) :
    (Coordinator.chat c w (resp :: rest) messages).result =
        .error (.toolCallError .unknownToolName) ∧
      (Coordinator.chat c w (resp :: rest) messages).coord.history =
        c.history ++ messages ++ [resp.message] ++ rs.map ChatMessage.tool ∧
      (Coordinator.chat c w (resp :: rest) messages).world = wf ∧
      (Coordinator.chat c w (resp :: rest) messages).script = rest := by
  have hne : resp.message.tool_calls.isEmpty = false := by
    rw [hcalls]
    cases pre <;> simp
  have ha := dispatch_append pre
    { c with history := c.history ++ messages ++ [resp.message] } w es rs wf
    (call :: post) hpre
  rw [← hcalls] at ha
  simp only [dispatchCalls, hunknown] at ha
  have hcd := chat_cons_dispatch_error c w rest messages resp
    (.toolCallError .unknownToolName) hne (by rw [ha.1])
  refine ⟨hcd.1, ?_, ?_, hcd.2.2.2⟩
  · rw [hcd.2.1, ha.2.1]
  · rw [hcd.2.2.1, ha.2.2.1]

/-- C3 witness for the amended claim: registry `{a}`, round `[a, b]`,
with the successful `a` preceding the unknown `b`. -/
theorem chat_unknown_tool_witness :
    respAB.message.tool_calls = [callNamed "a"] ++ callNamed "b" :: [] ∧
      ((Coordinator.chat coordA () [respAB] []).result =
          .error (.toolCallError .unknownToolName) ∧
        (Coordinator.chat coordA () [respAB] []).coord.history =
          coordA.history ++ [] ++ [respAB.message] ++ ["ra"].map ChatMessage.tool ∧
        (Coordinator.chat coordA () [respAB] []).world = () ∧
        (Coordinator.chat coordA () [respAB] []).script = []) :=
  ⟨rfl, chat_unknown_tool coordA () [] [] respAB [callNamed "a"] [] (callNamed "b")
    _ ["ra"] () rfl rfl rfl⟩

/-! ## C4 -/

/-- C4 (tool-failure error): a buffered tool invocation that is reached
(all preceding calls of the round succeeded) and returns a failure makes
chat surface the tool-call failure error wrapping the inner cause (the
source's `InternalToolError`, the spec's `ToolInvocationFailure`),
terminates the round (remaining script untouched), and appends no
`Role::Tool` message for the failed call: history is everything appended
before the failure point — the prior history, the transport's appends, and
the preceding calls' tool results — and nothing else. -/
theorem chat_tool_failure {σ : Type} (c : Coordinator σ) (w : σ)
    (rest : List ChatMessageResponse) (messages : List ChatMessage)
    (resp : ChatMessageResponse) (pre post : List ToolCall) (call : ToolCall)
    (es : List DispatchEvent) (rs : List String) (wf : σ) (t : ToolImpl σ)
    (inner : String) (w1 : σ)
    (hcalls : resp.message.tool_calls = pre ++ call :: post)
    (hpre : specSequentialTrace c.tools w pre = some (es, rs, wf))
    (hlook : lookupTool c.tools call.function.name = some t)
    (hfail : t call.function.arguments wf = (.error inner, w1)) :
    (Coordinator.chat c w (resp :: rest) messages).result =
        .error (.toolCallError (.internalToolError inner)) ∧
      (Coordinator.chat c w (resp :: rest) messages).coord.history =
        c.history ++ messages ++ [resp.message] ++ rs.map ChatMessage.tool ∧
      (Coordinator.chat c w (resp :: rest) messages).world = w1 ∧
      (Coordinator.chat c w (resp :: rest) messages).script = rest := by
  have hne : resp.message.tool_calls.isEmpty = false := by
    rw [hcalls]
    cases pre <;> simp
  have ha := dispatch_append pre
    { c with history := c.history ++ messages ++ [resp.message] } w es rs wf
    (call :: post) hpre
  rw [← hcalls] at ha
  simp only [dispatchCalls, hlook, hfail] at ha
  have hcd := chat_cons_dispatch_error c w rest messages resp
    (.toolCallError (.internalToolError inner)) hne (by rw [ha.1])
  refine ⟨hcd.1, ?_, ?_, hcd.2.2.2⟩
  · rw [hcd.2.1, ha.2.1]
  · rw [hcd.2.2.1, ha.2.2.1]

/-- C4 witness: registry `{a}` where `a` fails with inner error `"ea"`;
round `[a]`: the failure is surfaced wrapped and no tool message is
appended. -/
theorem chat_tool_failure_witness :
    respA.message.tool_calls = [] ++ callNamed "a" :: [] ∧
      ((Coordinator.chat coordAFail () [respA] []).result =
          .error (.toolCallError (.internalToolError "ea")) ∧
        (Coordinator.chat coordAFail () [respA] []).coord.history =
          coordAFail.history ++ [] ++ [respA.message] ++
            ([] : List String).map ChatMessage.tool ∧
        (Coordinator.chat coordAFail () [respA] []).world = () ∧
        (Coordinator.chat coordAFail () [respA] []).script = []) :=
  ⟨rfl, chat_tool_failure coordAFail () [] [] respA [] [] (callNamed "a")
    [] [] () toolAFail.impl "ea" () rfl rfl rfl rfl⟩

/-! ## C5 -/

/-- C5 (dispatch order): a buffered round's tool dispatch (the loop at
lines 128-147) refines the spec-side strictly-sequential trace: when it
succeeds, its observable event trace is exactly
`invoked k0, appended k0, invoked k1, appended k1, ...` in the order the
calls appear in the response, each call invoked on the world state left by
its predecessor (so call k+1 is never invoked before call k's result is
appended), and the `Role::Tool` result messages land in history in that
same order. -/
theorem dispatch_order_refines_spec {σ : Type} (c : Coordinator σ) (w : σ)
    (calls : List ToolCall)
    (h : (dispatchCalls c w calls).result = .ok ()) :
    ∃ es rs wf, specSequentialTrace c.tools w calls = some (es, rs, wf) ∧
      (dispatchCalls c w calls).events = es ∧
      (dispatchCalls c w calls).coord.history =
        c.history ++ rs.map ChatMessage.tool ∧
      (dispatchCalls c w calls).world = wf := by
  obtain ⟨es, rs, wf, hs⟩ := spec_of_dispatch_ok calls c w h
  have hd := dispatch_of_spec calls c w es rs wf hs
  exact ⟨es, rs, wf, hs, hd.2.2.2, by rw [hd.2.1], hd.2.2.1⟩

/-- C5 witness: the spec's own order test — `inc` mutates the counter that
`read` reads; dispatched as `[inc, read]` from `0`, the trace interleaves
invoke/append in order and `read`'s appended result `"1"` reflects `inc`'s
mutation. -/
theorem dispatch_order_refines_spec_witness :
    (dispatchCalls coordCount 0 [callNamed "inc", callNamed "read"]).result =
        .ok () ∧
      (dispatchCalls coordCount 0 [callNamed "inc", callNamed "read"]).coord.history =
        [ChatMessage.tool "done", ChatMessage.tool "1"] ∧
      (∃ es rs wf,
        specSequentialTrace coordCount.tools 0 [callNamed "inc", callNamed "read"] =
            some (es, rs, wf) ∧
          (dispatchCalls coordCount 0 [callNamed "inc", callNamed "read"]).events = es ∧
          (dispatchCalls coordCount 0 [callNamed "inc", callNamed "read"]).coord.history =
            coordCount.history ++ rs.map ChatMessage.tool ∧
          (dispatchCalls coordCount 0 [callNamed "inc", callNamed "read"]).world = wf) :=
  ⟨rfl, rfl,
    dispatch_order_refines_spec coordCount 0 [callNamed "inc", callNamed "read"] rfl⟩

/-! ## C6 -/

/-- C6 (success path per round): in a buffered round where all tool calls
succeed (a completed sequential trace with results `rs`), each successful
call appends exactly one `Role::Tool` message holding its string result —
history grows by exactly `rs.map ChatMessage.tool`, in order — and the loop
continues as a chat call with an empty new-messages list on that updated
history; the emitted events are the round's dispatch events followed by the
continuation's. -/
theorem chat_success_round {σ : Type} (c : Coordinator σ) (w : σ)
    (rest : List ChatMessageResponse) (messages : List ChatMessage)
    (resp : ChatMessageResponse) (es : List DispatchEvent) (rs : List String)
    (wf : σ)
    (hne : resp.message.tool_calls ≠ [])
    (hspec : specSequentialTrace c.tools w resp.message.tool_calls =
      some (es, rs, wf)) :
    (Coordinator.chat c w (resp :: rest) messages).result =
        (Coordinator.chat
          { c with history :=
              c.history ++ messages ++ [resp.message] ++ rs.map ChatMessage.tool }
          wf rest []).result ∧
      (Coordinator.chat c w (resp :: rest) messages).coord =
        (Coordinator.chat
          { c with history :=
              c.history ++ messages ++ [resp.message] ++ rs.map ChatMessage.tool }
          wf rest []).coord ∧
      (Coordinator.chat c w (resp :: rest) messages).world =
        (Coordinator.chat
          { c with history :=
              c.history ++ messages ++ [resp.message] ++ rs.map ChatMessage.tool }
          wf rest []).world ∧
      (Coordinator.chat c w (resp :: rest) messages).script =
        (Coordinator.chat
          { c with history :=
              c.history ++ messages ++ [resp.message] ++ rs.map ChatMessage.tool }
          wf rest []).script ∧
      (Coordinator.chat c w (resp :: rest) messages).events =
        es ++ (Coordinator.chat
          { c with history :=
              c.history ++ messages ++ [resp.message] ++ rs.map ChatMessage.tool }
          wf rest []).events := by
  have hne' : resp.message.tool_calls.isEmpty = false := by
    cases h' : resp.message.tool_calls
    · exact absurd h' hne
    · simp
  have hd := dispatch_of_spec resp.message.tool_calls
    { c with history := c.history ++ messages ++ [resp.message] } w es rs wf hspec
  have hc := chat_cons_dispatch_ok c w rest messages resp hne' hd.1
  rw [hd.2.1, hd.2.2.1] at hc
  refine ⟨hc.1, hc.2.1, hc.2.2.1, hc.2.2.2.1, ?_⟩
  rw [hc.2.2.2.2, hd.2.2.2]

/-- C6 witness: registry `{a}`, round `[a]` then a final round: the round
appends exactly `Tool("ra")` and continues with an empty message list. -/
theorem chat_success_round_witness :
    respA.message.tool_calls ≠ [] ∧
      ((Coordinator.chat coordA () [respA, respDone] []).result =
          (Coordinator.chat
            { coordA with history :=
                coordA.history ++ [] ++ [respA.message] ++
                  ["ra"].map ChatMessage.tool }
            () [respDone] []).result ∧
        (Coordinator.chat coordA () [respA, respDone] []).coord =
          (Coordinator.chat
            { coordA with history :=
                coordA.history ++ [] ++ [respA.message] ++
                  ["ra"].map ChatMessage.tool }
            () [respDone] []).coord ∧
        (Coordinator.chat coordA () [respA, respDone] []).world =
          (Coordinator.chat
            { coordA with history :=
                coordA.history ++ [] ++ [respA.message] ++
                  ["ra"].map ChatMessage.tool }
            () [respDone] []).world ∧
        (Coordinator.chat coordA () [respA, respDone] []).script =
          (Coordinator.chat
            { coordA with history :=
                coordA.history ++ [] ++ [respA.message] ++
                  ["ra"].map ChatMessage.tool }
            () [respDone] []).script ∧
        (Coordinator.chat coordA () [respA, respDone] []).events =
          [DispatchEvent.invoked "a" "\x7b\x7d", DispatchEvent.appended "ra"] ++
            (Coordinator.chat
              { coordA with history :=
                  coordA.history ++ [] ++ [respA.message] ++
                    ["ra"].map ChatMessage.tool }
              () [respDone] []).events) :=
  ⟨by decide, chat_success_round coordA () [respDone] [] respA
    [DispatchEvent.invoked "a" "\x7b\x7d", DispatchEvent.appended "ra"]
    ["ra"] () (by decide) rfl⟩

/-! ## C7 -/

/-- When every fragment the transport delivers is an `Ok` value, the inner
stream loop yields all of them verbatim in order, accumulates every
fragment's tool calls, and does not abort. -/
theorem consumeStream_all_ok :
    ∀ (stream : List (Except OllamaError ChatMessageResponse)),
      (∀ i ∈ stream, ∃ r, i = Except.ok r) →
      consumeStream stream =
        (stream,
          stream.flatMap (fun i => match i with
            | .ok r => r.message.tool_calls
            | .error _ => []),
          false)
  | [], _ => rfl
  | i :: rest, h => by
    obtain ⟨r, hr⟩ := h i (List.mem_cons_self i rest)
    subst hr
    have ih := consumeStream_all_ok rest fun j hj => h j (List.mem_cons_of_mem _ hj)
    simp [consumeStream, ih]

/-- C7 (streaming round structure): with every transport fragment delivered
as an `Ok` value, (1) every fragment is forwarded to the output sequence
immediately and unconditionally in order — fragments contributing tool
calls are not filtered out — and the loop does not abort; (2) tool calls
are accumulated across the whole fragment sequence; (3) if none were
accumulated the output sequence ends with exactly the forwarded fragments
and no follow-up request; (4) if some were accumulated, dispatch happens
only after the sequence is exhausted (it consumes the fully accumulated
list), and exactly one follow-up request — built with an empty new-messages
list — is issued for the round, the output sequence continuing with the
next round's items. -/
theorem chat_stream_round_structure {σ : Type} (c : Coordinator σ) (w : σ)
    (shared : List ChatMessage)
    (stream : List (Except OllamaError ChatMessageResponse))
    (script : List (List (Except OllamaError ChatMessageResponse)))
    (hok : ∀ i ∈ stream, ∃ r, i = Except.ok r) :
    (consumeStream stream).1 = stream ∧
      (consumeStream stream).2.2 = false ∧
      (consumeStream stream).2.1 = stream.flatMap (fun i => match i with
        | .ok r => r.message.tool_calls
        | .error _ => []) ∧
      ((consumeStream stream).2.1 = [] →
        streamLoop c script w shared stream =
          ⟨stream, false, [], shared ++ [assembleMessage stream], w, []⟩) ∧
      (∀ w1 sh1 dbg, (consumeStream stream).2.1 ≠ [] →
        streamDispatch c.tools c.debug w (shared ++ [assembleMessage stream])
            (consumeStream stream).2.1 = some (w1, sh1, dbg) →
        (streamRound c w shared stream =
            .next stream (c.generate_request []) sh1 w1 dbg) ∧
          (c.generate_request []).messages = [] ∧
          (∀ s restScript, script = s :: restScript →
            streamLoop c script w shared stream =
              ⟨stream ++ (streamLoop c restScript w1 sh1 s).yielded,
                (streamLoop c restScript w1 sh1 s).aborted,
                c.generate_request [] :: (streamLoop c restScript w1 sh1 s).requests,
                (streamLoop c restScript w1 sh1 s).shared,
                (streamLoop c restScript w1 sh1 s).world,
                dbg ++ (streamLoop c restScript w1 sh1 s).stderr⟩)) := by
  have hc := consumeStream_all_ok stream hok
  have h2 : (consumeStream stream).2.1 = stream.flatMap (fun i => match i with
      | Except.ok r => r.message.tool_calls
      | Except.error _ => []) := by rw [hc]
  refine ⟨by rw [hc], by rw [hc], h2, ?_, ?_⟩
  · intro hempty
    rw [h2] at hempty
    have hround : streamRound c w shared stream =
        .done stream false (shared ++ [assembleMessage stream]) w [] := by
      simp only [streamRound, hc]
      rw [hempty]
      simp [streamDispatch]
    rw [streamLoop, hround]
  · intro w1 sh1 dbg hne hdisp
    rw [h2] at hne hdisp
    have hround : streamRound c w shared stream =
        .next stream (c.generate_request []) sh1 w1 dbg := by
      rcases hcalls2 : stream.flatMap (fun i => match i with
          | Except.ok r => r.message.tool_calls
          | Except.error _ => []) with _ | ⟨hd, tl⟩
      · exact absurd hcalls2 hne
      · rw [hcalls2] at hdisp
        simp only [streamRound, hc]
        rw [hcalls2, hdisp]
        simp
    refine ⟨hround, generate_request_messages c [], ?_⟩
    intro s restScript hscript
    subst hscript
    rw [streamLoop, hround]
    simp [generate_request_messages]

/-- C7 witness: a concrete streaming round over one `Ok` fragment carrying
a tool call: the fragment is forwarded, and the round's step is exactly one
follow-up request built with an empty message list, after dispatching the
accumulated call. -/
theorem chat_stream_round_structure_witness :
    (∀ i ∈ ([Except.ok respA] : List (Except OllamaError ChatMessageResponse)),
        ∃ r, i = Except.ok r) ∧
      (consumeStream [Except.ok respA]).1 = [Except.ok respA] ∧
      (coordA.generate_request []).messages = ([] : List ChatMessage) ∧
      streamRound coordA () [] [Except.ok respA] =
        .next [Except.ok respA] (coordA.generate_request [])
          [assembleMessage [Except.ok respA], ChatMessage.tool "ra"] () [] := by
  have hok : ∀ i ∈ ([Except.ok respA] : List (Except OllamaError ChatMessageResponse)),
      ∃ r, i = Except.ok r := by
    intro i hi
    rw [List.mem_singleton] at hi
    exact ⟨respA, hi⟩
  have h := chat_stream_round_structure coordA () [] [Except.ok respA]
    [[Except.ok respDone]] hok
  have h4 := h.2.2.2.2 ()
    [assembleMessage [Except.ok respA], ChatMessage.tool "ra"] []
    (by decide) rfl
  exact ⟨hok, h.1, h4.2.1, h4.1⟩

/-! ## C8 -/

/-- C8 (evaluating the code at the failing input): in the streaming path a
round naming the unregistered tool `"b"` aborts the process — the code hits
`panic!()` where the error-surfacing yield is commented out; transport
`Err` fragments likewise hit `i.unwrap()` and inner tool failures
`.unwrap()` — instead of surfacing `UnknownToolName` as an error value of
the output sequence: the consumer saw only the `Ok` fragment and no error
value before the abort. -/
theorem chat_stream_unknown_tool_aborts :
    Coordinator.chat_stream coordA () [] [[Except.ok respAB]] =
      Except.ok
        { yielded := [Except.ok respAB]
          aborted := true
          requests := [reqA0]
          shared := [assembleMessage [Except.ok respAB]]
          world := ()
          stderr := [] } := by
  rfl

/-! ## C9 -/

/-- In the replace branch of `hashInsert`, looking the key up finds the new
binding. -/
theorem find_map_replace {α : Type} (k : String) (v : α) :
    ∀ (m : List (String × α)), m.any (fun p => p.1 = k) = true →
      (m.map (fun p => if p.1 = k then (k, v) else p)).find?
        (fun p => p.1 = k) = some (k, v)
  | [], h => by simp at h
  | p :: rest, h => by
    by_cases hp : p.1 = k
    · simp [List.find?, hp]
    · have hr : rest.any (fun p => p.1 = k) = true := by
        simp only [List.any_cons, Bool.or_eq_true, decide_eq_true_eq] at h
        rcases h with h | h
        · exact absurd h hp
        · exact h
      simp [List.find?, hp, find_map_replace k v rest hr]

/-- In the add branch of `hashInsert` (key absent), looking the key up
finds the appended binding. -/
theorem find_append_none {α : Type} (k : String) (v : α) :
    ∀ (m : List (String × α)), m.any (fun p => p.1 = k) = false →
      (m ++ [(k, v)]).find? (fun p => p.1 = k) = some (k, v)
  | [], _ => by simp [List.find?]
  | p :: rest, h => by
    simp only [List.any_cons, Bool.or_eq_false_iff, decide_eq_false_iff_not] at h
    simp [List.find?, h.1, find_append_none k v rest (by simp [h.2])]

/-- `HashMap::insert` then `get` at the same key yields the inserted value. -/
theorem lookup_hashInsert {α : Type} (m : List (String × α)) (k : String) (v : α) :
    lookupTool (hashInsert m k v) k = some v := by
  unfold hashInsert lookupTool
  split
  · rename_i h
    rw [find_map_replace k v m h]
    rfl
  · rename_i h
    rw [find_append_none k v m (by rwa [Bool.not_eq_true] at h)]
    rfl

/-- C9 (duplicate registration): adding two tools sharing one name leaves
two descriptor entries in `tool_infos` — and both are sent with every
subsequent request — while the name-keyed registry maps that name to only
the most recently added capability, silently replacing the earlier one
(looking up either tool's name yields the second capability). -/
theorem add_tool_duplicate {σ : Type} (c : Coordinator σ) (t1 t2 : ToolDef σ)
    (h : t1.name = t2.name) :
    ((c.add_tool t1).add_tool t2).tool_infos =
        c.tool_infos ++ [ToolInfo.ofTool t1, ToolInfo.ofTool t2] ∧
      (∀ messages,
        (((c.add_tool t1).add_tool t2).generate_request messages).tools =
          c.tool_infos ++ [ToolInfo.ofTool t1, ToolInfo.ofTool t2]) ∧
      lookupTool ((c.add_tool t1).add_tool t2).tools t2.name = some t2.impl ∧
      lookupTool ((c.add_tool t1).add_tool t2).tools t1.name = some t2.impl := by
  refine ⟨by simp [Coordinator.add_tool], ?_, ?_, ?_⟩
  · intro messages
    rw [generate_request_tools]
    simp [Coordinator.add_tool]
  · exact lookup_hashInsert _ _ _
  · rw [h]
    exact lookup_hashInsert _ _ _

/-- C9 witness: registering `toolA` then `toolAFail`, both named `"a"`. -/
theorem add_tool_duplicate_witness :
    toolA.name = toolAFail.name ∧
      ((((Coordinator.new "m" [] : Coordinator Unit).add_tool toolA).add_tool
            toolAFail).tool_infos =
          (Coordinator.new "m" [] : Coordinator Unit).tool_infos ++
            [ToolInfo.ofTool toolA, ToolInfo.ofTool toolAFail] ∧
        (∀ messages,
          ((((Coordinator.new "m" [] : Coordinator Unit).add_tool toolA).add_tool
              toolAFail).generate_request messages).tools =
            (Coordinator.new "m" [] : Coordinator Unit).tool_infos ++
              [ToolInfo.ofTool toolA, ToolInfo.ofTool toolAFail]) ∧
        lookupTool ((((Coordinator.new "m" [] : Coordinator Unit).add_tool
            toolA).add_tool toolAFail)).tools toolAFail.name = some toolAFail.impl ∧
        lookupTool ((((Coordinator.new "m" [] : Coordinator Unit).add_tool
            toolA).add_tool toolAFail)).tools toolA.name = some toolAFail.impl) :=
  ⟨rfl, add_tool_duplicate (Coordinator.new "m" []) toolA toolAFail rfl⟩

/-! ## C10 -/

/-- The dispatch loop never changes the debug flag. -/
theorem dispatch_preserves_debug {σ : Type} :
    ∀ (calls : List ToolCall) (c : Coordinator σ) (w : σ),
      (dispatchCalls c w calls).coord.debug = c.debug
  | [], _, _ => rfl
  | call :: rest, c, w => by
    simp only [dispatchCalls]
    cases hl : lookupTool c.tools call.function.name with
    | none => rfl
    | some t =>
      dsimp only
      cases hc : t call.function.arguments w with
      | mk res w1 =>
        cases res with
        | error e => rfl
        | ok r =>
          exact dispatch_preserves_debug rest
            { c with history := c.history ++ [ChatMessage.tool r] } w1

/-- The debug flag does not interfere with the dispatch loop: result,
coordinator (apart from the flag itself), world and events agree for any
two flag values; only stderr may differ. -/
theorem dispatch_debug_invariant {σ : Type} :
    ∀ (calls : List ToolCall) (c : Coordinator σ) (w : σ) (b1 b2 : Bool),
      (dispatchCalls { c with debug := b1 } w calls).result =
          (dispatchCalls { c with debug := b2 } w calls).result ∧
        (dispatchCalls { c with debug := b1 } w calls).coord =
          { (dispatchCalls { c with debug := b2 } w calls).coord with debug := b1 } ∧
        (dispatchCalls { c with debug := b1 } w calls).world =
          (dispatchCalls { c with debug := b2 } w calls).world ∧
        (dispatchCalls { c with debug := b1 } w calls).events =
          (dispatchCalls { c with debug := b2 } w calls).events
  | [], c, w, b1, b2 => by
    simp [dispatchCalls]
  | call :: rest, c, w, b1, b2 => by
    simp only [dispatchCalls]
    dsimp only
    cases hl : lookupTool c.tools call.function.name with
    | none => simp
    | some t =>
      dsimp only
      cases hc : t call.function.arguments w with
      | mk res w1 =>
        cases res with
        | error e => simp
        | ok r =>
          dsimp only
          have ih := dispatch_debug_invariant rest
            { c with history := c.history ++ [ChatMessage.tool r] } w1 b1 b2
          simp only at ih
          simp [ih.1, ih.2.1, ih.2.2.1, ih.2.2.2]

/-- The debug flag does not interfere with the buffered chat loop: result,
coordinator (apart from the flag itself), world, remaining script and
events agree between a coordinator and the same coordinator with the flag
set; only stderr may differ. -/
theorem chat_debug_invariant {σ : Type} :
    ∀ (script : List ChatMessageResponse) (c : Coordinator σ) (b1 : Bool) (w : σ)
      (messages : List ChatMessage),
      (Coordinator.chat { c with debug := b1 } w script messages).result =
          (Coordinator.chat c w script messages).result ∧
        (Coordinator.chat { c with debug := b1 } w script messages).coord =
          { (Coordinator.chat c w script messages).coord with debug := b1 } ∧
        (Coordinator.chat { c with debug := b1 } w script messages).world =
          (Coordinator.chat c w script messages).world ∧
        (Coordinator.chat { c with debug := b1 } w script messages).script =
          (Coordinator.chat c w script messages).script ∧
        (Coordinator.chat { c with debug := b1 } w script messages).events =
          (Coordinator.chat c w script messages).events
  | [], c, b1, w, messages => by
    simp [Coordinator.chat]
  | resp :: rest, c, b1, w, messages => by
    simp only [Coordinator.chat, generate_request_messages]
    dsimp only
    by_cases hne : resp.message.tool_calls.isEmpty = true
    · simp [hne]
    · simp only [hne, Bool.false_eq_true, if_false]
      have hd := dispatch_debug_invariant resp.message.tool_calls
        { c with history := c.history ++ messages ++ [resp.message] } w b1 c.debug
      dsimp only at hd
      cases hres : (dispatchCalls
          { c with history := c.history ++ messages ++ [resp.message] } w
          resp.message.tool_calls).result with
      | error e =>
        rw [hd.1, hres]
        dsimp only
        exact ⟨rfl, hd.2.1, hd.2.2.1, rfl, hd.2.2.2⟩
      | ok u =>
        cases u
        rw [hd.1, hres]
        dsimp only
        rw [hd.2.1, hd.2.2.1]
        have ih := chat_debug_invariant rest
          (dispatchCalls { c with history := c.history ++ messages ++ [resp.message] }
            w resp.message.tool_calls).coord b1
          (dispatchCalls { c with history := c.history ++ messages ++ [resp.message] }
            w resp.message.tool_calls).world []
        exact ⟨ih.1, ih.2.1, ih.2.2.1, ih.2.2.2.1, by rw [hd.2.2.2, ih.2.2.2.2]⟩

/-- C10 (debug noninterference): for every coordinator, world, transport
script and message list, running the buffered chat with `debug := true` and
with `debug := false` yields the same returned result, the same final
history (and same coordinator apart from the flag), the same tool world,
the same remaining script and the same dispatch events — the flag affects
only the stderr side channel, never control flow or data. -/
theorem chat_debug_noninterference {σ : Type} (c : Coordinator σ) (w : σ)
    (script : List ChatMessageResponse) (messages : List ChatMessage) :
    (Coordinator.chat { c with debug := true } w script messages).result =
        (Coordinator.chat { c with debug := false } w script messages).result ∧
      (Coordinator.chat { c with debug := true } w script messages).coord.history =
        (Coordinator.chat { c with debug := false } w script messages).coord.history ∧
      (Coordinator.chat { c with debug := true } w script messages).world =
        (Coordinator.chat { c with debug := false } w script messages).world ∧
      (Coordinator.chat { c with debug := true } w script messages).script =
        (Coordinator.chat { c with debug := false } w script messages).script ∧
      (Coordinator.chat { c with debug := true } w script messages).events =
        (Coordinator.chat { c with debug := false } w script messages).events := by
  have h1 := chat_debug_invariant script c true w messages
  have h2 := chat_debug_invariant script c false w messages
  refine ⟨h1.1.trans h2.1.symm, ?_, h1.2.2.1.trans h2.2.2.1.symm,
    h1.2.2.2.1.trans h2.2.2.2.1.symm, h1.2.2.2.2.trans h2.2.2.2.2.symm⟩
  rw [h1.2.1, h2.2.1]

end OllamaRs
